import Mathlib

/-!
Verification development for the coder/retry package (Go).

The definitions below are a shallow embedding of the source files
retry.go, retrier.go, backoff.go, func.go and listener.go. Durations
(Go time.Duration, an int64 of nanoseconds) are modelled as integers;
float64 arithmetic is modelled as exact rational arithmetic, with the
Go float-to-integer conversion modelled as truncation toward zero.
Random draws are explicit inputs. Loops take a fuel argument and
return none when the fuel runs out, so that every definition is a
total computable function.
-/

/-- Model of Go error values as used by this package. A sentinel is a
distinct base error (errors.New or a package level sentinel); causeWrap
models a pkg/errors wrapper that implements the Cause method (for
example errors.WithStack or errors.WithMessage); stdWrap models a
stdlib wrapper produced by fmt.Errorf with a w verb, which implements
Unwrap but not Cause; abortErr models the abortError struct of func.go,
which embeds the wrapped error and implements neither Cause nor Unwrap.
A Go nil error is represented by none at the Option level. -/
inductive GoErr where
  | sentinel (tag : String)
  | causeWrap (inner : GoErr)
  | stdWrap (inner : GoErr)
  | abortErr (inner : GoErr)
deriving DecidableEq, Repr

/-- Nesting depth of an error value, used to separate a wrapper from the
error it wraps. -/
def GoErr.depth : GoErr → ℕ
  | .sentinel _ => 0
  | .causeWrap e => e.depth + 1
  | .stdWrap e => e.depth + 1
  | .abortErr e => e.depth + 1

/-- Model of errors.Cause from github.com/pkg/errors: repeatedly unwrap
while the current error implements the Cause method. Only causeWrap
implements Cause; stdWrap and abortErr do not, so unwrapping stops
there. -/
def cause : GoErr → GoErr
  | .causeWrap e => cause e
  | .sentinel tag => .sentinel tag
  | .stdWrap e => .stdWrap e
  | .abortErr e => .abortErr e

/-- Lift of cause to Option: errors.Cause maps nil to nil. -/
def causeOpt : Option GoErr → Option GoErr :=
  Option.map cause

/-- Model of the membership chain of Go 1.13 errors.Is: an error e
contains target if e equals target or some Unwrap step of e reaches
target. Both causeWrap and stdWrap implement Unwrap; abortErr does
not (it embeds the error interface, which promotes only the Error
method). -/
def inChain (target : GoErr) : GoErr → Bool
  | .causeWrap e => decide (GoErr.causeWrap e = target) || inChain target e
  | .stdWrap e => decide (GoErr.stdWrap e = target) || inChain target e
  | e => decide (e = target)

/-- Post-conditions of retry.go: the implicit default appended by New
(retry while the error is non-nil), OnErrors and NotOnErrors. -/
inductive PostCond where
  | defaultCond
  | onErrors (errs : List GoErr)
  | notOnErrors (errs : List GoErr)
deriving DecidableEq, Repr

/-- Evaluation of one post-condition on the (already cause-unwrapped)
error, mirroring the closures of retry.go: the default condition from
New returns err non-nil; OnErrors compares the error with each member
of its set using Go equality; NotOnErrors is its negation. -/
def PostCond.eval : PostCond → Option GoErr → Bool
  | .defaultCond, err => err.isSome
  | .onErrors errs, err => errs.any (fun checkErr => decide (err = some checkErr))
  | .notOnErrors errs, err => !(errs.any (fun checkErr => decide (err = some checkErr)))

/-- Model of Retry.postCheck (retry.go lines 116 to 124): the raw error
is first unwrapped with errors.Cause, then every post-condition must
return true. -/
def postCheck (conds : List PostCond) (err : Option GoErr) : Bool :=
  conds.all (fun c => c.eval (causeOpt err))

/-- The error built by errors.New inside the Attempts pre-condition when
the budget is exhausted. -/
def noAttemptsLeftErr : GoErr := .sentinel "no retry attempts left"

/-- The error built by errors.New inside the Attempts pre-condition when
maxAttempts is negative. -/
def negativeAttemptsErr : GoErr := .sentinel "negative max retry attempts"

/-- Model of the pre-condition closure installed by Retry.Attempts
(retry.go lines 130 to 143). The captured counter i equals the number
of earlier invocations, because the closure increments it exactly once
per successful check. -/
def attemptsPre (maxAttempts : ℤ) (i : ℕ) : Option GoErr :=
  if maxAttempts < 0 then some negativeAttemptsErr
  else if maxAttempts ≤ (i : ℤ) then some noAttemptsLeftErr
  else none

/-- Model of Retry.preCheck for a retry whose only pre-condition, if
any, is the Attempts closure with counter i. -/
def preErr (maxAttempts : Option ℤ) (i : ℕ) : Option GoErr :=
  match maxAttempts with
  | none => none
  | some m => attemptsPre m i

/-- Model of Retry.Run (retry.go lines 242 to 255) for a retry
configured with an optional Attempts pre-condition and a list of
post-conditions. Each cycle runs the pre-condition, invokes the action,
runs postCheck on the raw error, and either loops or returns that raw
error; when the pre-condition fails, Run returns the error produced by
the pre-condition itself. The result also carries the number of action
invocations; sleeping does not affect any returned value and is
omitted. The first argument of the recursion is fuel; none means the
fuel ran out before the loop finished. -/
def runRetry (maxAttempts : Option ℤ) (conds : List PostCond) (fn : ℕ → Option GoErr) :
    ℕ → ℕ → Option (Option GoErr × ℕ)
  | 0, _ => none
  | fuel + 1, i =>
    match preErr maxAttempts i with
    | some e => some (some e, i)
    | none =>
      if postCheck conds (fn i) then runRetry maxAttempts conds fn fuel (i + 1)
      else some (fn i, i + 1)

/-- The default post-condition list installed by New. -/
def newConds : List PostCond := [.defaultCond]

/-- Truncation toward zero, the semantics of the Go conversion from
float64 to an integer type such as time.Duration. -/
def truncQ (q : ℚ) : ℤ :=
  if 0 ≤ q then ⌊q⌋ else ⌈q⌉

/-- Model of applyJitter (retrier.go lines 46 to 55). The argument z is
the sample drawn from rand.NormFloat64, an explicit input here. The
multiplication d times Duration(1 + jitter times z) follows the source
exactly: the float factor is truncated to a Duration before the integer
multiplication, and a negative product is clamped to zero. -/
def applyJitter (d : ℤ) (jitter : ℚ) (z : ℚ) : ℤ :=
  if jitter = 0 then d
  else
    let d2 := d * truncQ (1 + jitter * z)
    if d2 < 0 then 0 else d2

/-- State of the Retrier struct of retrier.go: current delay, floor,
ceiling, growth rate and jitter level. Durations are integer
nanoseconds; Rate and Jitter are float64 fields modelled as rationals. -/
structure Retrier where
  delay : ℤ
  floor : ℤ
  ceil : ℤ
  rate : ℚ
  jitter : ℚ
deriving DecidableEq, Repr

/-- Model of Retrier.Wait (retrier.go lines 59 to 77). The boolean
cancelFirst resolves the select race: true means the ctx.Done branch
is taken (Wait returns false), false means the timer branch is taken
(Wait sleeps the computed delay, raises the stored delay to the floor
and returns true). The first statement mirrors the source compound
assignment, whose right hand side is Duration(float64(Delay) times
Rate): the stored delay is multiplied by that converted value. -/
def Retrier.wait (r : Retrier) (cancelFirst : Bool) (z : ℚ) : Bool × Retrier :=
  let d1 := r.delay * truncQ ((r.delay : ℚ) * r.rate)
  let d2 := applyJitter d1 r.jitter z
  let d3 := if r.ceil < d2 then r.ceil else d2
  if cancelFirst then (false, { r with delay := d3 })
  else (true, { r with delay := if d3 < r.floor then r.floor else d3 })

/-- Test for the type assertion err.(abortError) of func.go: only the
outermost abortError wrapper matches. -/
def isAbortErr : GoErr → Bool
  | .abortErr _ => true
  | _ => false

/-- Model of Func.Do (func.go lines 18 to 33) for an action fn returning
a value and an error at each attempt index. cancelAt tells, for each
Wait call, whether the cancellation signal wins the select race during
that wait; zs supplies the jitter samples; ctxReason is the error
carried by the cancelled context (the value of ctx.Err() once Done is
closed). The result carries the returned value, the returned error and
the number of action invocations; none means the fuel ran out. -/
def funcDo {α : Type} (fn : ℕ → α × Option GoErr) (cancelAt : ℕ → Bool) (zs : ℕ → ℚ)
    (ctxReason : GoErr) : ℕ → ℕ → Retrier → α → Option (α × Option GoErr × ℕ)
  | 0, _, _, _ => none
  | fuel + 1, k, st, v =>
    match st.wait (cancelAt k) (zs k) with
    | (false, _) => some (v, some ctxReason, k)
    | (true, st2) =>
      match fn k with
      | (v2, none) => some (v2, none, k + 1)
      | (v2, some e) =>
        if isAbortErr e then some (v2, some e, k + 1)
        else funcDo fn cancelAt zs ctxReason fuel (k + 1) st2 v2

/-- Model of the sleepDur closure installed by Retry.Backoff (retry.go
lines 155 to 174) on a retry built by New: the captured delay starts at
the constant sleep returned by the base sleepDur, the n-th call returns
the current delay, and afterwards, while the delay is still below the
ceiling, it is doubled and clamped to the ceiling. backoffDelay sleep
ceil n is the value returned by the n-th call. -/
def backoffDelay (sleep ceil : ℤ) : ℕ → ℤ
  | 0 => sleep
  | n + 1 =>
    let d := backoffDelay sleep ceil n
    if d < ceil then (if ceil < d * 2 then ceil else d * 2) else d

/-- State of the Backoff struct of backoff.go: the configured Floor and
Ceil and the private delay, which starts at zero. -/
structure Backoff where
  floor : ℤ
  ceil : ℤ
  delay : ℤ
deriving DecidableEq, Repr

/-- Model of the backoff method (backoff.go lines 24 to 34): when Floor
is at least Ceil the delay is left untouched, otherwise it is doubled
and clamped to Ceil. -/
def Backoff.backoffGrow (b : Backoff) : Backoff :=
  if b.ceil ≤ b.floor then b
  else
    let d := b.delay * 2
    { b with delay := if b.ceil < d then b.ceil else d }

/-- Model of Backoff.Wait (backoff.go lines 40 to 54) on the
non-cancelled path: the delay is first raised to the Floor, the loop
sleeps that duration, and the backoff method then grows the stored
delay. The result is the slept duration paired with the state after
the call. -/
def Backoff.waitStep (b : Backoff) : ℤ × Backoff :=
  let d := if b.delay < b.floor then b.floor else b.delay
  (d, Backoff.backoffGrow { b with delay := d })

/-- State of a Backoff with the given Floor and Ceil before its n-th
Wait call, starting from the zero value of the private delay. -/
def backoffStateAt (floor ceil : ℤ) : ℕ → Backoff
  | 0 => ⟨floor, ceil, 0⟩
  | n + 1 => (backoffStateAt floor ceil n).waitStep.2

/-- Duration slept by the n-th Wait call of a fresh Backoff with the
given Floor and Ceil. -/
def backoffSleptAt (floor ceil : ℤ) (n : ℕ) : ℤ :=
  (backoffStateAt floor ceil n).waitStep.1

/-- Result of one call to the wrapped inner Accept of listener.go: a
connection, a net.Error whose Temporary method returns true, or any
other error (including a net.Error that is not temporary), which
Listener.Accept returns immediately. -/
inductive AcceptRes where
  | conn
  | tempErr
  | permErr
deriving DecidableEq, Repr

/-- The constant initialListenerDelay of listener.go (5ms). -/
def initialListenerDelay : ℤ := 5000000

/-- The constant maxListenerDelay of listener.go (1s). -/
def maxListenerDelay : ℤ := 1000000000

/-- The retryDelay update of listener.go lines 26 to 33: a zero delay
becomes the initial delay, otherwise the delay doubles and is clamped
to the maximum. -/
def listenerStep (d : ℤ) : ℤ :=
  if d = 0 then initialListenerDelay
  else
    let d2 := d * 2
    if maxListenerDelay < d2 then maxListenerDelay else d2

/-- Model of the loop body of Listener.Accept (listener.go lines 19 to
46): stream gives the result of each inner Accept call, i is the index
of the next inner call, d the current retryDelay. The result is the
terminal outcome, the list of delays slept, and the index of the next
unconsumed inner result; none means the fuel ran out. -/
def acceptFrom (stream : ℕ → AcceptRes) : ℕ → ℕ → ℤ → Option (AcceptRes × List ℤ × ℕ)
  | 0, _, _ => none
  | fuel + 1, i, d =>
    match stream i with
    | .tempErr =>
      let d2 := listenerStep d
      match acceptFrom stream fuel (i + 1) d2 with
      | none => none
      | some (r, ds, j) => some (r, d2 :: ds, j)
    | .conn => some (.conn, [], i + 1)
    | .permErr => some (.permErr, [], i + 1)

/-- Model of one call to Listener.Accept: the local variable retryDelay
is declared inside Accept and therefore starts at zero on every call. -/
def accept (stream : ℕ → AcceptRes) (fuel i : ℕ) : Option (AcceptRes × List ℤ × ℕ) :=
  acceptFrom stream fuel i 0

/-- The delay slept after the t-th consecutive transient failure within
a single Accept call: the initial delay doubled t times, clamped to the
maximum. -/
def listenerDelayAt (t : ℕ) : ℤ :=
  min (initialListenerDelay * 2 ^ t) maxListenerDelay

/-- Model of the sleepDur closure installed by Retry.Jitter (retry.go
lines 203 to 224). The source computes the two float64 values
minDuration = float64(dur) * (1 - rat) and
maxDuration = float64(dur) * (1 + rat); here those two computed float
values are explicit inputs minD and maxD, so that float64 rounding is
captured by hypotheses relating them to the exact products (the
standard relative-error model of floating point) rather than being
idealized away: for dur above 2 to the 53rd the conversion
float64(dur) and the products already round. The conversions
int64(minDuration) and int64(maxDuration) truncate toward zero as in
Go, and the rnd.Int63n draw over their difference is modelled by an
arbitrary seed taken modulo the Int63n bound, which ranges over
exactly the values Int63n can return; Int63n panics when its bound is
not positive, modelled by none. -/
def jitterSleepFloat (minD maxD : ℚ) (seed : ℕ) : Option ℤ :=
  let lo := truncQ minD
  let hi := truncQ maxD
  if hi - lo ≤ 0 then none
  else some (lo + (seed : ℤ) % (hi - lo))

/-- Exact-arithmetic specialization of jitterSleepFloat in which the
two float products carry no rounding error (which is the true float64
behaviour whenever dur and the products are exactly representable,
e.g. small dyadic values); it is used only to state the configuration
wrapper retryJitter, whose claim concerns the guard alone. Claim C8
uses jitterSleepFloat directly so that rounding is accounted for. -/
def jitterSleep (dur : ℤ) (rat : ℚ) (seed : ℕ) : Option ℤ :=
  jitterSleepFloat ((dur : ℚ) * (1 - rat)) ((dur : ℚ) * (1 + rat)) seed

/-- Model of the configuration call Retry.Jitter (retry.go lines 203 to
208): when rat is at most 0 or at least 1 the call panics immediately
at configuration time, modelled by none, before any sleep is drawn;
otherwise the configured retry sleeps jitterSleep values. -/
def retryJitter (rat : ℚ) (sleep : ℕ → ℤ) (seeds : ℕ → ℕ) : Option (ℕ → Option ℤ) :=
  if rat ≤ 0 ∨ 1 ≤ rat then none
  else some (fun n => jitterSleep (sleep n) rat (seeds n))

theorem postCheck_default_some (e : GoErr) :
    postCheck newConds (some e) = true := by
  simp [postCheck, newConds, causeOpt, PostCond.eval]

theorem run_attempts_aux (n : ℕ) (fn : ℕ → Option GoErr)
    (hfail : ∀ i, (fn i).isSome) :
    ∀ (fuel i : ℕ), i ≤ n → n - i < fuel →
      runRetry (some (n : ℤ)) newConds fn fuel i = some (some noAttemptsLeftErr, n) := by
  intro fuel
  induction fuel with
  | zero => intro i _ h; omega
  | succ fuel ih =>
    intro i hin hfuel
    by_cases hi : i = n
    · subst hi
      have hpre : preErr (some (i : ℤ)) i = some noAttemptsLeftErr := by
        simp only [preErr, attemptsPre]
        rw [if_neg (by omega : ¬ ((i : ℤ) < 0)), if_pos (le_refl ((i : ℤ)))]
      simp [runRetry, hpre]
    · have hlt : i < n := by omega
      obtain ⟨e, he⟩ := Option.isSome_iff_exists.mp (hfail i)
      have hpre : preErr (some (n : ℤ)) i = none := by
        simp only [preErr, attemptsPre]
        rw [if_neg (by omega : ¬ ((n : ℤ) < 0)), if_neg (by omega : ¬ ((n : ℤ) ≤ (i : ℤ)))]
      have hpost : postCheck newConds (fn i) = true := by
        rw [he]; exact postCheck_default_some e
      simp only [runRetry, hpre, hpost, if_true]
      exact ih (i + 1) (by omega) (by omega)

/-- C1: with Retry.Attempts n and an action failing on every invocation,
Run makes exactly n invocations and never an n plus first one; however
the returned error is the distinct exhaustion error produced by the
Attempts pre-condition (errors.New with message no retry attempts
left), not the error of the n-th attempt. This proves the invocation
count part of the claim and exhibits the return value the code actually
produces at the failing input of the claim. -/
theorem c1_attempts_returns_exhaustion_error (n : ℕ) (fn : ℕ → Option GoErr)
    (hfail : ∀ i, (fn i).isSome) :
    runRetry (some (n : ℤ)) newConds fn (n + 1) 0 = some (some noAttemptsLeftErr, n) :=
  run_attempts_aux n fn hfail (n + 1) 0 (Nat.zero_le n) (by omega)

/-- Witness for C1 at the concrete failing input: budget 2, action
always returning the sentinel boom. Run invokes the action exactly
twice and returns the exhaustion error, which differs from the last
action error. -/
theorem c1_attempts_returns_exhaustion_error_witness :
    runRetry (some ((2 : ℕ) : ℤ)) newConds (fun _ => some (.sentinel "boom")) 3 0 =
      some (some noAttemptsLeftErr, 2) ∧
    noAttemptsLeftErr ≠ GoErr.sentinel "boom" :=
  ⟨c1_attempts_returns_exhaustion_error 2 (fun _ => some (.sentinel "boom")) (fun _ => rfl),
   by decide⟩

theorem preErr_none (i : ℕ) : preErr none i = none := rfl

theorem inChain_self (e : GoErr) : inChain e e = true := by
  cases e <;> simp [inChain]

theorem onErrors_eval_mem (errs : List GoErr) (e : GoErr) (h : e ∈ errs) :
    PostCond.eval (.onErrors errs) (some e) = true := by
  simp only [PostCond.eval, List.any_eq_true]
  exact ⟨e, h, by simp⟩

theorem onErrors_eval_not_mem (errs : List GoErr) (e : GoErr) (h : e ∉ errs) :
    PostCond.eval (.onErrors errs) (some e) = false := by
  simp only [PostCond.eval, List.any_eq_false]
  intro c hc
  simp only [decide_eq_true_eq, Option.some.injEq]
  intro hec
  exact h (hec ▸ hc)

/-- C6: with post-conditions OnErrors containing E1 and E2 and an action
whose three attempts return e1, e2, e3 whose root causes (after
errors.Cause unwrapping) are E1, E2 and an error matching neither, the
loop retries twice, stops at the third attempt, invokes the action
exactly 3 times and returns the raw (non-unwrapped) error of the third
attempt. -/
theorem c6_onErrors_stops_third_attempt (E1 E2 e1 e2 e3 : GoErr) (fn : ℕ → Option GoErr)
    (h0 : fn 0 = some e1) (h1 : fn 1 = some e2) (h2 : fn 2 = some e3)
    (hc1 : cause e1 = E1) (hc2 : cause e2 = E2)
    (hne1 : cause e3 ≠ E1) (hne2 : cause e3 ≠ E2) :
    runRetry none [.defaultCond, .onErrors [E1, E2]] fn 3 0 = some (some e3, 3) := by
  have mem1 : cause e1 ∈ [E1, E2] := by rw [hc1]; simp
  have mem2 : cause e2 ∈ [E1, E2] := by rw [hc2]; simp
  have mem3 : cause e3 ∉ [E1, E2] := by
    intro h
    rcases List.mem_pair.mp h with h | h
    · exact hne1 h
    · exact hne2 h
  have hp0 : postCheck [.defaultCond, .onErrors [E1, E2]] (some e1) = true := by
    simp [postCheck, causeOpt, PostCond.eval]
    simpa using mem1
  have hp1 : postCheck [.defaultCond, .onErrors [E1, E2]] (some e2) = true := by
    simp [postCheck, causeOpt, PostCond.eval]
    simpa using mem2
  have hp2 : postCheck [.defaultCond, .onErrors [E1, E2]] (some e3) = false := by
    simp only [postCheck, causeOpt, Option.map_some, List.all_cons, List.all_nil,
      Bool.and_true, Bool.and_eq_false_iff]
    right
    exact onErrors_eval_not_mem _ _ mem3
  simp [runRetry, preErr_none, h0, h1, h2, hp0, hp1, hp2]

/-- Witness for C6: sentinels E1, E2, E3, with the second attempt
wrapped by a pkg/errors WithStack wrapper, matching the shape of the
Cond test of retry_test.go. -/
theorem c6_onErrors_stops_third_attempt_witness :
    runRetry none
      [.defaultCond, .onErrors [.sentinel "E1", .sentinel "E2"]]
      (fun i => if i = 0 then some (.sentinel "E1")
                else if i = 1 then some (.causeWrap (.sentinel "E2"))
                else some (.sentinel "E3")) 3 0 =
      some (some (.sentinel "E3"), 3) :=
  c6_onErrors_stops_third_attempt (.sentinel "E1") (.sentinel "E2")
    (.sentinel "E1") (.causeWrap (.sentinel "E2")) (.sentinel "E3") _
    rfl rfl rfl (by decide) (by decide) (by decide) (by decide)

/-- C10: OnErrors decides membership by Go equality against the result
of errors.Cause, which unwraps only Cause-implementing wrappers. For a
sentinel E in the condition set, an action error that wraps E through
the stdlib mechanism (fmt.Errorf with the w verb, modelled by stdWrap)
still contains E in its Unwrap chain, yet errors.Cause leaves the
wrapper in place, the equality test fails, and the loop stops at the
first attempt surfacing the wrapped error. -/
theorem c10_onErrors_misses_stdlib_wrapped (E : GoErr) (errs : List GoErr)
    (fn : ℕ → Option GoErr)
    (hmem : E ∈ errs) (hnot : GoErr.stdWrap E ∉ errs)
    (h0 : fn 0 = some (.stdWrap E)) :
    inChain E (GoErr.stdWrap E) = true ∧
    runRetry none [.defaultCond, .onErrors errs] fn 1 0 = some (some (.stdWrap E), 1) := by
  constructor
  · simp [inChain, inChain_self]
  · have hcause : cause (GoErr.stdWrap E) = GoErr.stdWrap E := rfl
    have hp : postCheck [.defaultCond, .onErrors errs] (some (.stdWrap E)) = false := by
      simp only [postCheck, causeOpt, Option.map_some, hcause, List.all_cons,
        List.all_nil, Bool.and_true, Bool.and_eq_false_iff]
      right
      exact onErrors_eval_not_mem _ _ hnot
    simp [runRetry, preErr_none, h0, hp]

/-- Witness for C10 at a concrete input: set contains the sentinels E1
and E2, the action returns E1 wrapped by the stdlib mechanism; E1 is in
the chain of the returned error, yet the loop stops after exactly one
invocation and surfaces the wrapped error. -/
theorem c10_onErrors_misses_stdlib_wrapped_witness :
    inChain (.sentinel "E1") (GoErr.stdWrap (.sentinel "E1")) = true ∧
    runRetry none [.defaultCond, .onErrors [.sentinel "E1", .sentinel "E2"]]
      (fun _ => some (.stdWrap (.sentinel "E1"))) 1 0 =
      some (some (.stdWrap (.sentinel "E1")), 1) :=
  c10_onErrors_misses_stdlib_wrapped (.sentinel "E1")
    [.sentinel "E1", .sentinel "E2"] _ (by decide) (by decide) rfl

theorem abortErr_ne_inner (E : GoErr) : GoErr.abortErr E ≠ E := by
  intro h
  have hd := congrArg GoErr.depth h
  simp [GoErr.depth] at hd

theorem wait_not_cancelled (st : Retrier) (z : ℚ) :
    ∃ st2, st.wait false z = (true, st2) := by
  simp [Retrier.wait]

/-- C3: when the action returns an error wrapped by retry.Abort, the
loop stops at once with no further Wait and no further attempt, after
exactly one invocation here; however the error surfaced to the caller
is the abortError wrapper itself, not the unwrapped underlying error:
Do returns err unchanged after the type assertion, and the wrapper is
a different error value from the one it wraps. -/
theorem c3_abort_stops_returning_wrapper {α : Type} (fn : ℕ → α × Option GoErr)
    (cancelAt : ℕ → Bool) (zs : ℕ → ℚ) (ctxReason E : GoErr) (st : Retrier) (v0 v1 : α)
    (hca : cancelAt 0 = false) (h0 : fn 0 = (v1, some (.abortErr E))) :
    funcDo fn cancelAt zs ctxReason 1 0 st v0 = some (v1, some (.abortErr E), 1) ∧
    GoErr.abortErr E ≠ E := by
  refine ⟨?_, abortErr_ne_inner E⟩
  obtain ⟨st2, hw⟩ := wait_not_cancelled st (zs 0)
  rw [funcDo, hca, hw, h0]
  simp [isAbortErr]

/-- Witness for C3 at a concrete input: the action immediately returns
Abort applied to the sentinel boom; Do stops after one invocation and
returns the wrapper, which differs from the sentinel. -/
theorem c3_abort_stops_returning_wrapper_witness :
    funcDo (fun _ => ((7 : ℤ), some (.abortErr (.sentinel "boom")))) (fun _ => false)
      (fun _ => 0) (.sentinel "ctx") 1 0 ⟨0, 1, 10, 2, 0⟩ 0 =
      some (7, some (.abortErr (.sentinel "boom")), 1) ∧
    GoErr.abortErr (.sentinel "boom") ≠ GoErr.sentinel "boom" :=
  c3_abort_stops_returning_wrapper _ _ _ (.sentinel "ctx") (.sentinel "boom")
    ⟨0, 1, 10, 2, 0⟩ 0 7 rfl rfl

theorem funcDo_cancel_aux {α : Type} (fn : ℕ → α × Option GoErr) (cancelAt : ℕ → Bool)
    (zs : ℕ → ℚ) (ctxReason : GoErr) (k : ℕ) (hk : cancelAt k = true) :
    ∀ (fuel j : ℕ) (st : Retrier) (v : α), j ≤ k → k - j < fuel →
      (∀ m, j ≤ m → m < k → cancelAt m = false) →
      (∀ m, j ≤ m → m < k → ∃ e, (fn m).2 = some e ∧ isAbortErr e = false) →
      ∃ w, funcDo fn cancelAt zs ctxReason fuel j st v = some (w, some ctxReason, k) := by
  intro fuel
  induction fuel with
  | zero => intro j st v _ h; omega
  | succ fuel ih =>
    intro j st v hjk hfuel hquiet hfail
    by_cases hj : j = k
    · subst hj
      refine ⟨v, ?_⟩
      rw [funcDo, hk]
      simp [Retrier.wait]
    · have hlt : j < k := by omega
      obtain ⟨e, he, hab⟩ := hfail j (le_refl j) hlt
      have hfn : fn j = ((fn j).1, some e) := by
        rw [← he]
      obtain ⟨st2, hw⟩ := wait_not_cancelled st (zs j)
      rw [funcDo, hquiet j (le_refl j) hlt, hw, hfn]
      simp only [hab, Bool.false_eq_true, if_false]
      exact ih (j + 1) st2 ((fn j).1) (by omega) (by omega)
        (fun m hm hmk => hquiet m (by omega) hmk)
        (fun m hm hmk => hfail m (by omega) hmk)

/-- C5: if the cancellation signal wins the race during the k-th wait,
while every earlier attempt returned a non-abort error, the loop
terminates at that wait with exactly k invocations (no further attempt
is made) and Do returns the cancellation reason ctx.Err(), not the most
recent action error. The conclusion projects away the returned value,
which is whatever the last attempt produced. -/
theorem c5_cancellation_returns_ctx_reason {α : Type} (fn : ℕ → α × Option GoErr)
    (cancelAt : ℕ → Bool) (zs : ℕ → ℚ) (ctxReason : GoErr) (k fuel : ℕ)
    (st : Retrier) (v : α)
    (hk : cancelAt k = true)
    (hquiet : ∀ m, m < k → cancelAt m = false)
    (hfail : ∀ m, m < k → ∃ e, (fn m).2 = some e ∧ isAbortErr e = false)
    (hfuel : k < fuel) :
    Option.map Prod.snd (funcDo fn cancelAt zs ctxReason fuel 0 st v) =
      some (some ctxReason, k) := by
  obtain ⟨w, hw⟩ := funcDo_cancel_aux fn cancelAt zs ctxReason k hk fuel 0 st v
    (Nat.zero_le k) (by omega) (fun m _ hmk => hquiet m hmk) (fun m _ hmk => hfail m hmk)
  rw [hw]
  rfl

/-- Witness for C5 at a concrete input: the first attempt fails with the
sentinel boom, cancellation fires during the second wait, and Do
returns the context reason with exactly one invocation made. -/
theorem c5_cancellation_returns_ctx_reason_witness :
    Option.map Prod.snd (funcDo (fun _ => ((0 : ℤ), some (.sentinel "boom")))
      (fun j => decide (1 ≤ j)) (fun _ => 0) (.sentinel "canceled") 2 0 ⟨0, 1, 10, 2, 0⟩ 0) =
      some (some (.sentinel "canceled"), 1) :=
  c5_cancellation_returns_ctx_reason _ _ _ (.sentinel "canceled") 1 2 ⟨0, 1, 10, 2, 0⟩ 0
    rfl
    (fun m hm => by
      have hm0 : m = 0 := by omega
      subst hm0; rfl)
    (fun m hm => ⟨.sentinel "boom", rfl, rfl⟩)
    (by omega)

theorem backoffDelay_bounds :
    ∀ n, 1000000000 ≤ backoffDelay 1000000000 10000000000 n ∧
      backoffDelay 1000000000 10000000000 n ≤ 10000000000 := by
  intro n
  induction n with
  | zero => constructor <;> decide
  | succ n ih =>
    obtain ⟨h1, h2⟩ := ih
    simp only [backoffDelay]
    split_ifs <;> omega

/-- C2: for the policy New(1s).Backoff(10s), growth factor 2 and no
jitter, the successive sleep durations (nanoseconds) are 1s, 2s, 4s,
8s, 10s, 10s; the sequence is monotonically non-decreasing, never
below the initial 1s floor and capped at the 10s ceiling. -/
theorem c2_backoff_delay_sequence :
    ((List.range 6).map (backoffDelay 1000000000 10000000000) =
      [1000000000, 2000000000, 4000000000, 8000000000, 10000000000, 10000000000]) ∧
    (∀ n, backoffDelay 1000000000 10000000000 n ≤
      backoffDelay 1000000000 10000000000 (n + 1)) ∧
    (∀ n, 1000000000 ≤ backoffDelay 1000000000 10000000000 n ∧
      backoffDelay 1000000000 10000000000 n ≤ 10000000000) := by
  refine ⟨by decide, ?_, backoffDelay_bounds⟩
  intro n
  obtain ⟨h1, h2⟩ := backoffDelay_bounds n
  conv_rhs => rw [backoffDelay]
  split_ifs <;> omega

theorem backoffStateAt_succ (floor ceil : ℤ) (hlt : ceil < floor) (hnn : 0 ≤ floor) :
    ∀ n, backoffStateAt floor ceil (n + 1) = ⟨floor, ceil, floor⟩ := by
  intro n
  induction n with
  | zero =>
    simp only [backoffStateAt, Backoff.waitStep, Backoff.backoffGrow]
    split_ifs with h1 h2 h3 <;> simp_all <;> omega
  | succ n ih =>
    rw [backoffStateAt, ih]
    simp only [Backoff.waitStep, Backoff.backoffGrow]
    split_ifs with h1 h2 h3 <;> simp_all <;> omega

/-- C7: in the degenerate configuration Floor greater than Ceil (for
nonnegative durations), every Wait call of the Backoff sleeps exactly
the Floor: growth is disabled and the configuration is accepted as is,
not rejected. -/
theorem c7_floor_above_ceil_sleeps_floor (floor ceil : ℤ)
    (hlt : ceil < floor) (hnn : 0 ≤ floor) :
    ∀ n, backoffSleptAt floor ceil n = floor := by
  intro n
  cases n with
  | zero =>
    simp only [backoffSleptAt, backoffStateAt, Backoff.waitStep]
    split_ifs with h <;> omega
  | succ n =>
    rw [backoffSleptAt, backoffStateAt_succ floor ceil hlt hnn n]
    simp only [Backoff.waitStep]
    split_ifs with h <;> omega

/-- Witness for C7 at a concrete input: Floor five seconds, Ceil one
second; the first and the fourth Wait both sleep exactly the Floor. -/
theorem c7_floor_above_ceil_sleeps_floor_witness :
    (1000000000 : ℤ) < 5000000000 ∧ (0 : ℤ) ≤ 5000000000 ∧
    backoffSleptAt 5000000000 1000000000 0 = 5000000000 ∧
    backoffSleptAt 5000000000 1000000000 3 = 5000000000 :=
  ⟨by decide, by decide,
   c7_floor_above_ceil_sleeps_floor 5000000000 1000000000 (by decide) (by decide) 0,
   c7_floor_above_ceil_sleeps_floor 5000000000 1000000000 (by decide) (by decide) 3⟩

theorem listenerStep_zero : listenerStep 0 = listenerDelayAt 0 := by decide

theorem listenerStep_delayAt (t : ℕ) :
    listenerStep (listenerDelayAt t) = listenerDelayAt (t + 1) := by
  have ha : (0 : ℤ) < 5000000 * 2 ^ t := by positivity
  have hpow : (2 : ℤ) ^ (t + 1) = 2 ^ t * 2 := pow_succ 2 t
  simp only [listenerStep, listenerDelayAt, initialListenerDelay, maxListenerDelay, hpow,
    ← mul_assoc]
  omega

theorem acceptFrom_geom (stream : ℕ → AcceptRes) :
    ∀ (m fuel i t : ℕ),
      (∀ s, s < m → stream (i + s) = .tempErr) → stream (i + m) = .conn → m < fuel →
      acceptFrom stream fuel i (listenerDelayAt t) =
        some (.conn, (List.range m).map (fun s => listenerDelayAt (t + 1 + s)), i + m + 1) := by
  intro m
  induction m with
  | zero =>
    intro fuel i t _ hconn hfuel
    obtain ⟨fuel, rfl⟩ : ∃ f, fuel = f + 1 := ⟨fuel - 1, by omega⟩
    have hc : stream i = .conn := by simpa using hconn
    simp [acceptFrom, hc]
  | succ m ih =>
    intro fuel i t htmp hconn hfuel
    obtain ⟨fuel, rfl⟩ : ∃ f, fuel = f + 1 := ⟨fuel - 1, by omega⟩
    have h0 : stream i = .tempErr := by simpa using htmp 0 (by omega)
    have htmp2 : ∀ s, s < m → stream (i + 1 + s) = .tempErr := by
      intro s hs
      have h := htmp (s + 1) (by omega)
      rwa [show i + (s + 1) = i + 1 + s by omega] at h
    have hconn2 : stream (i + 1 + m) = .conn := by
      rwa [show i + (m + 1) = i + 1 + m by omega] at hconn
    have hrec := ih fuel (i + 1) (t + 1) htmp2 hconn2 (by omega)
    simp only [acceptFrom, h0, listenerStep_delayAt, hrec]
    refine congrArg some ?_
    refine congrArg (Prod.mk AcceptRes.conn) ?_
    simp only [Prod.mk.injEq]
    refine ⟨?_, by omega⟩
    rw [List.range_succ_eq_map, List.map_cons, List.map_map]
    refine congrArg (List.cons (listenerDelayAt (t + 1))) ?_
    refine List.map_congr_left ?_
    intro s _
    simp only [Function.comp_apply]
    rw [show t + 1 + (s + 1) = t + 1 + 1 + s by omega]

/-- C4 counterexample: the inner listener yields two transient errors,
a connection, one more transient error, then a connection. The first
Accept call sleeps 5ms then 10ms; the second Accept call sleeps 5ms
again for its transient failure: its delay restarts at the initial
value instead of continuing to grow from the 10ms reached during the
first call, because retryDelay is a local variable of Accept. -/
theorem c4_delay_not_preserved_counterexample :
    accept (fun i =>
      if i = 0 then .tempErr else if i = 1 then .tempErr else if i = 2 then .conn
      else if i = 3 then .tempErr else .conn) 10 0 =
      some (.conn, [5000000, 10000000], 3) ∧
    accept (fun i =>
      if i = 0 then .tempErr else if i = 1 then .tempErr else if i = 2 then .conn
      else if i = 3 then .tempErr else .conn) 10 3 =
      some (.conn, [5000000], 5) ∧
    (5000000 : ℤ) < 10000000 := by
  refine ⟨by decide, by decide, by decide⟩

/-- C4 amended: the delay state is scoped to a single Accept call, not
to the Listener object. Within one call, m consecutive transient
failures followed by a connection sleep exactly the delays 5ms doubled
at each step and clamped at 1s; the delays depend only on the position
inside the current call, so every Accept call restarts from the
initial delay whatever happened in earlier calls, and no reset API
exists or is needed. -/
theorem c4_accept_delay_scoped_per_call (stream : ℕ → AcceptRes) (i m fuel : ℕ)
    (htmp : ∀ s, s < m → stream (i + s) = .tempErr)
    (hconn : stream (i + m) = .conn)
    (hfuel : m < fuel) :
    accept stream fuel i = some (.conn, (List.range m).map listenerDelayAt, i + m + 1) := by
  cases m with
  | zero =>
    obtain ⟨fuel, rfl⟩ : ∃ f, fuel = f + 1 := ⟨fuel - 1, by omega⟩
    have hc : stream i = .conn := by simpa using hconn
    simp [accept, acceptFrom, hc]
  | succ m =>
    obtain ⟨fuel, rfl⟩ : ∃ f, fuel = f + 1 := ⟨fuel - 1, by omega⟩
    have h0 : stream i = .tempErr := by simpa using htmp 0 (by omega)
    have htmp2 : ∀ s, s < m → stream (i + 1 + s) = .tempErr := by
      intro s hs
      have h := htmp (s + 1) (by omega)
      rwa [show i + (s + 1) = i + 1 + s by omega] at h
    have hconn2 : stream (i + 1 + m) = .conn := by
      rwa [show i + (m + 1) = i + 1 + m by omega] at hconn
    have hrec := acceptFrom_geom stream m fuel (i + 1) 0 htmp2 hconn2 (by omega)
    simp only [accept, acceptFrom, h0, listenerStep_zero, hrec]
    refine congrArg some ?_
    refine congrArg (Prod.mk AcceptRes.conn) ?_
    simp only [Prod.mk.injEq]
    refine ⟨?_, by omega⟩
    rw [List.range_succ_eq_map, List.map_cons, List.map_map]
    refine congrArg (List.cons (listenerDelayAt 0)) ?_
    refine List.map_congr_left ?_
    intro s _
    simp only [Function.comp_apply]
    rw [show 0 + 1 + s = s + 1 by omega]

/-- Witness for C4 amended at a concrete input: two transient failures
then a connection, starting at inner index 0. -/
theorem c4_accept_delay_scoped_per_call_witness :
    accept (fun i => if i < 2 then .tempErr else .conn) 10 0 =
      some (.conn, (List.range 2).map listenerDelayAt, 3) :=
  c4_accept_delay_scoped_per_call (fun i => if i < 2 then .tempErr else .conn) 0 2 10
    (fun s hs => by
      have : s < 2 := by omega
      simp [this])
    (by simp)
    (by omega)

/-- C8 counterexample: the claim asserts every jittered delay lies in
the closed interval from d times (1 minus r) to d times (1 plus r).
For the normal-distribution jitter applyJitter of retrier.go, the
sample 4 of NormFloat64 with ratio one half and base delay 4 yields
12, far above the upper bound 6, because a normal sample is unbounded;
at these inputs the float computations (one half times 4, then 1 plus
2) are exact, so this is the program trace. In addition, for the
uniform jitter of retry.go at base delay 1 and ratio one half, the
float ends minDuration equal to one half and maxDuration equal to
three halves are computed without rounding error (small dyadic
values), and the draw 0 yields delay 0, below the lower bound one
half, because the ends are truncated to integer durations. -/
theorem c8_jitter_interval_counterexample :
    applyJitter 4 (1/2) 4 = 12 ∧ ¬ ((12 : ℚ) ≤ ((4 : ℤ) : ℚ) * (1 + 1/2)) ∧
    jitterSleepFloat (1/2) (3/2) 0 = some 0 ∧
    ¬ (((1 : ℤ) : ℚ) * (1 - 1/2) ≤ ((0 : ℤ) : ℚ)) := by
  refine ⟨by norm_num [applyJitter, truncQ], by norm_num,
    by norm_num [jitterSleepFloat, truncQ], by norm_num⟩

theorem c8_aux_trunc_nonneg (q : ℚ) (h : 0 ≤ q) : truncQ q = ⌊q⌋ :=
  if_pos h

/-- C8 amended: for every ratio rat in the open interval (0, 1), every
positive base delay dur, and every pair of float64-computed interval
ends minD and maxD within relative rounding error eps of the exact
products dur times (1 minus rat) and dur times (1 plus rat) (the
standard relative-error model of float64; eps is 0 whenever the
computations are exact, as at small dyadic inputs, and an eps of about
2 to the minus 51 amply covers the at most three roundings per end),
every delay the uniform jitter of retry.go can produce (over all
states of the random source) lies strictly between
(1 - eps) times dur times (1 - rat) minus one nanosecond and
(1 + eps) times dur times (1 + rat): the claimed interval widened by
the float64 rounding of minDuration and maxDuration and by the one
nanosecond the float-to-Duration truncation can lose at the lower end.
The normal-distribution jitter applyJitter of retrier.go does not obey
any such interval bound (see the counterexample) and guarantees only a
non-negative result, clamped at zero. -/
theorem c8_jitter_bounds (dur : ℤ) (rat eps minD maxD : ℚ) (seed : ℕ) (v : ℤ)
    (d : ℤ) (j z : ℚ)
    (hd : 0 < dur) (hr0 : 0 < rat) (hr1 : rat < 1)
    (hmn : 0 ≤ minD)
    (hmin : (1 - eps) * ((dur : ℚ) * (1 - rat)) ≤ minD)
    (hmax : maxD ≤ (1 + eps) * ((dur : ℚ) * (1 + rat)))
    (hv : jitterSleepFloat minD maxD seed = some v) (hj : j ≠ 0) :
    ((1 - eps) * ((dur : ℚ) * (1 - rat)) - 1 < (v : ℚ) ∧
     (v : ℚ) < (1 + eps) * ((dur : ℚ) * (1 + rat))) ∧
    0 ≤ applyJitter d j z := by
  constructor
  · simp only [jitterSleepFloat, c8_aux_trunc_nonneg _ hmn] at hv
    split at hv
    · exact absurd hv (by simp)
    · rename_i hpos
      obtain rfl : ⌊minD⌋ + (seed : ℤ) % (truncQ maxD - ⌊minD⌋) = v :=
        Option.some_injective _ hv
      have hlonn : 0 ≤ ⌊minD⌋ := Int.floor_nonneg.mpr hmn
      have hhipos : 0 < truncQ maxD := by omega
      have hmaxnn : 0 ≤ maxD := by
        by_contra hneg
        push_neg at hneg
        have htr : truncQ maxD = ⌈maxD⌉ := by
          unfold truncQ
          rw [if_neg (not_le.mpr hneg)]
        have hc : ⌈maxD⌉ ≤ 0 := Int.ceil_le.mpr (by exact_mod_cast hneg.le)
        omega
      have hm0 : 0 ≤ (seed : ℤ) % (truncQ maxD - ⌊minD⌋) :=
        Int.emod_nonneg _ (by omega)
      have hmlt : (seed : ℤ) % (truncQ maxD - ⌊minD⌋) < truncQ maxD - ⌊minD⌋ :=
        Int.emod_lt_of_pos _ (by omega)
      constructor
      · have hfl : minD - 1 < (⌊minD⌋ : ℚ) := Int.sub_one_lt_floor _
        have hle : (⌊minD⌋ : ℚ) ≤
            ((⌊minD⌋ + (seed : ℤ) % (truncQ maxD - ⌊minD⌋) : ℤ) : ℚ) := by
          exact_mod_cast (by omega :
            ⌊minD⌋ ≤ ⌊minD⌋ + (seed : ℤ) % (truncQ maxD - ⌊minD⌋))
        linarith
      · have hlt : ((⌊minD⌋ + (seed : ℤ) % (truncQ maxD - ⌊minD⌋) : ℤ) : ℚ) <
            ((truncQ maxD : ℤ) : ℚ) := by
          exact_mod_cast (by omega :
            ⌊minD⌋ + (seed : ℤ) % (truncQ maxD - ⌊minD⌋) < truncQ maxD)
        have hfl : ((truncQ maxD : ℤ) : ℚ) ≤ maxD := by
          rw [c8_aux_trunc_nonneg _ hmaxnn]
          exact_mod_cast Int.floor_le maxD
        linarith
  · simp only [applyJitter, if_neg hj]
    split_ifs with h
    · exact le_refl 0
    · exact le_of_not_lt h

/-- Witness for C8 amended at a concrete input: base delay 1000ns and
ratio one half, where the float ends 500 and 1500 are computed exactly
(eps equal to 0), with seed 0 producing 500ns, inside the stated
bounds; in the normal-jitter branch, base delay 5 with ratio one half
and sample minus ten is clamped to a non-negative result. -/
theorem c8_jitter_bounds_witness :
    (((1 - (0 : ℚ)) * (((1000 : ℤ) : ℚ) * (1 - 1/2)) - 1 < ((500 : ℤ) : ℚ) ∧
      ((500 : ℤ) : ℚ) < (1 + (0 : ℚ)) * (((1000 : ℤ) : ℚ) * (1 + 1/2))) ∧
     0 ≤ applyJitter 5 (1/2) (-10)) :=
  c8_jitter_bounds 1000 (1/2) 0 500 1500 0 500 5 (1/2) (-10)
    (by decide) (by norm_num) (by norm_num) (by norm_num) (by norm_num) (by norm_num)
    (by norm_num [jitterSleepFloat, truncQ]) (by norm_num)

/-- C9 counterexample: the ratio 0 lies inside the interval claimed
valid, from 0 inclusive to 1 exclusive, yet Retry.Jitter panics on it
at configuration time. -/
theorem c9_jitter_zero_rejected :
    (0 : ℚ) ∈ Set.Ico (0 : ℚ) 1 ∧
    retryJitter 0 (fun _ => 1000000000) (fun _ => 0) = none := by
  constructor
  · exact ⟨le_refl 0, by norm_num⟩
  · simp [retryJitter]

/-- C9 amended: Retry.Jitter fails fast at configuration time, before
any sleep is drawn, exactly when the ratio is outside the open
interval (0, 1): ratios at most 0 (including the boundary 0 of the
claimed half-open domain) or at least 1 panic, and every ratio
strictly between 0 and 1 is accepted. -/
theorem c9_jitter_domain (rat : ℚ) (sleep : ℕ → ℤ) (seeds : ℕ → ℕ) :
    (retryJitter rat sleep seeds = none ↔ (rat ≤ 0 ∨ 1 ≤ rat)) ∧
    ((retryJitter rat sleep seeds).isSome = true ↔ (0 < rat ∧ rat < 1)) := by
  by_cases h : rat ≤ 0 ∨ 1 ≤ rat
  · rw [retryJitter, if_pos h]
    refine ⟨by simpa using h, ?_⟩
    constructor
    · intro hs
      simp at hs
    · rintro ⟨h1, h2⟩
      rcases h with h | h <;> linarith
  · rw [retryJitter, if_neg h]
    push_neg at h
    constructor
    · constructor
      · intro hc
        exact absurd hc (by simp)
      · intro hc
        rcases hc with hc | hc <;> linarith [h.1, h.2]
    · simp only [Option.isSome_some, true_iff]
      exact ⟨h.1, h.2⟩
